import Mathlib

/-!
Verification of the subscription control engine: error classification,
binding discovery, enable and disable state transitions, and centralized
multi-consumer control-message fan-out. The definitions below are a shallow
embedding of the Python sources in services/payment-processing/error_handler.py
and services/subscription-manager/handler.py. Platform calls (the AWS Lambda
introspection API) are modelled as explicit state passing over a Platform
record; calls that can raise are modelled with Except; functions that log and
swallow exceptions are total functions returning their Python return value.
-/

namespace AsyncCode

/-- Lowercase of a string, character by character; mirrors the Python
str.lower calls applied to the short ASCII action and service names. -/
def lowerStr (s : String) : String := String.mk (s.data.map Char.toLower)

/-- Boolean substring test on character lists; mirrors the Python
expression needle in hay. -/
def subListChar : List Char → List Char → Bool
  | n, [] => n.isEmpty
  | n, c :: t => n.isPrefixOf (c :: t) || subListChar n t

/-- Boolean substring test on strings; mirrors the Python needle in hay. -/
def containsSub (needle hay : String) : Bool := subListChar needle.data hay.data

/-- Prefix test on strings; mirrors Python str.startswith. -/
def startsWithStr (s pre : String) : Bool := pre.data.isPrefixOf s.data

/-- Fuel-driven worker for removeAll; every step consumes one character and
one unit of fuel, so fuel equal to the input length never runs out. The
fuel makes the recursion structural and hence kernel-reducible. -/
def removeAllFuel (pat : List Char) : Nat → List Char → List Char
  | _, [] => []
  | 0, s => s
  | fuel + 1, c :: t =>
    if pat ≠ [] ∧ pat.isPrefixOf (c :: t) then
      removeAllFuel pat fuel (t.drop (pat.length - 1))
    else
      c :: removeAllFuel pat fuel t

/-- Removal of every occurrence of a pattern, scanning left to right; mirrors
Python str.replace(pat, empty string) as used to derive service names. -/
def removeAll (pat s : List Char) : List Char := removeAllFuel pat s.length s

/-- Mirrors the error taxonomy of the ErrorType enum in error_handler.py. -/
inductive ErrorType
  | client_error
  | server_error
  | network_error
  | validation_error
  | processing_error
  deriving DecidableEq, Repr

/-- String value of an ErrorType member, mirroring the Python Enum value. -/
def ErrorType.value : ErrorType → String
  | .client_error => "client_error"
  | .server_error => "server_error"
  | .network_error => "network_error"
  | .validation_error => "validation_error"
  | .processing_error => "processing_error"

/-- Model of a Python exception as seen by classify_error: the code only
reads the name of the exception type and its message text. -/
structure Exc where
  typeName : String
  message : String
  deriving DecidableEq, Repr

/-- Mirrors the tail of ErrorHandler.classify_error reached when the
status-code branch did not return: classification by the name of the
exception type. The code compares the exact type name against two fixed
lists; the message text is never consulted. -/
def classifyByName (error_name : String) : ErrorType :=
  if error_name = "ConnectionError" ∨ error_name = "TimeoutError" ∨
      error_name = "ConnectTimeout" then ErrorType.network_error
  else if error_name = "ValueError" ∨ error_name = "ValidationError" ∨
      error_name = "KeyError" then ErrorType.validation_error
  else ErrorType.processing_error

/-- Mirrors ErrorHandler.classify_error. The Python guard if status_code is
truthiness: None and 0 skip the status-code branch. A present status code
outside both ranges falls through to the name-based classification, exactly
as the Python control flow does. -/
def classify_error (error : Exc) (status_code : Option Int) : ErrorType :=
  match status_code with
  | some sc =>
    if sc ≠ 0 then
      if 400 ≤ sc ∧ sc < 500 then ErrorType.client_error
      else if 500 ≤ sc ∧ sc < 600 then ErrorType.server_error
      else classifyByName error.typeName
    else classifyByName error.typeName
  | none => classifyByName error.typeName

/-- Mirrors ErrorHandler.should_retry. -/
def should_retry (error_type : ErrorType) : Bool :=
  error_type == ErrorType.network_error || error_type == ErrorType.server_error

/-- Mirrors ErrorHandler.should_stop_subscription. -/
def should_stop_subscription (error_type : ErrorType) : Bool :=
  error_type == ErrorType.server_error

/-- One event source mapping as returned by the platform listing call:
its opaque UUID, its State string and its EventSourceArn string. -/
structure Mapping where
  uuid : String
  state : String
  eventSourceArn : String
  deriving DecidableEq, Repr

/-- Boolean test used throughout both handlers: the lowercased
EventSourceArn contains sqs as a substring. -/
def arnIsSqs (arn : String) : Bool := containsSub "sqs" (lowerStr arn)

/-- Log outcome of the binding discovery in error_handler.py: info log on a
found SQS mapping, warning when no SQS mapping exists, error when the
listing call itself failed. -/
inductive DiscoverLog
  | foundSqs
  | warnNoSqs
  | errListFailed
  deriving DecidableEq, Repr

/-- Mirrors the loop inside SubscriptionManager._discover_event_source_mapping_uuid:
return the UUID of the first mapping whose EventSourceArn mentions sqs. -/
def findSqsMapping : List Mapping → Option String
  | [] => none
  | m :: rest => if arnIsSqs m.eventSourceArn then some m.uuid else findSqsMapping rest

/-- Mirrors SubscriptionManager._discover_event_source_mapping_uuid in
error_handler.py. The listing call is passed in as an Except value: an error
models the raised exception that the except branch swallows. The second
component records which log statement the taken path emits. -/
def discover_event_source_mapping_uuid (listing : Except String (List Mapping)) :
    Option String × DiscoverLog :=
  match listing with
  | Except.error _ => (none, DiscoverLog.errListFailed)
  | Except.ok ms =>
    match findSqsMapping ms with
    | some u => (some u, DiscoverLog.foundSqs)
    | none => (none, DiscoverLog.warnNoSqs)

/-- Consumer-local subscription manager state from error_handler.py: the
discovered (or configured) mapping UUID, plus the modelled outcome of the
two platform update calls (true means the call succeeds, false means it
raises and the except branch runs). -/
structure LocalSubscriptionManager where
  function_name : String
  event_source_mapping_uuid : Option String
  updateEnableOk : Bool
  updateDisableOk : Bool
  deriving DecidableEq, Repr

/-- Mirrors SubscriptionManager.disable_subscription: false without a UUID,
otherwise the outcome of the platform update call (exceptions swallowed). -/
def disable_subscription (sm : LocalSubscriptionManager) : Bool :=
  match sm.event_source_mapping_uuid with
  | none => false
  | some _ => sm.updateDisableOk

/-- Mirrors SubscriptionManager.enable_subscription. -/
def enable_subscription (sm : LocalSubscriptionManager) : Bool :=
  match sm.event_source_mapping_uuid with
  | none => false
  | some _ => sm.updateEnableOk

/-- Consumer-local error handler from error_handler.py. -/
structure ErrorHandler where
  service_name : String
  subscription_manager : Option LocalSubscriptionManager
  deriving DecidableEq, Repr

/-- Message context dictionary passed to handle_error; the code reads the
message_id and customer_id keys with default unknown. -/
structure MessageData where
  message_id : Option String
  customer_id : Option String
  deriving DecidableEq, Repr

/-- Error info dictionary built by handle_error. The subscription_disabled
key is only written on the server-error path, hence an Option. -/
structure ErrorInfo where
  error_type : String
  error_message : String
  status_code : Option Int
  service : String
  message_id : String
  customer_id : String
  subscription_disabled : Option Bool
  deriving DecidableEq, Repr

/-- Decision dictionary returned by handle_error. -/
structure HandleResult where
  action : String
  retry : Bool
  error_info : ErrorInfo
  deriving DecidableEq, Repr

/-- Mirrors ErrorHandler.handle_error. The second component is the trace of
disable_subscription invocations made during the call, recording the boolean
outcome of each; the code itself never raises, which the embedding reflects
by being a total function covering every branch, including a failing
disable call (modelled by updateDisableOk = false). -/
def handle_error (h : ErrorHandler) (error : Exc) (message_data : MessageData)
    (status_code : Option Int) : HandleResult × List Bool :=
  let error_type := classify_error error status_code
  let ei : ErrorInfo :=
    { error_type := error_type.value
      error_message := error.message
      status_code := status_code
      service := h.service_name
      message_id := message_data.message_id.getD "unknown"
      customer_id := message_data.customer_id.getD "unknown"
      subscription_disabled := none }
  if error_type = ErrorType.client_error then
    ({ action := "continue", retry := false, error_info := ei }, [])
  else if error_type = ErrorType.server_error then
    match h.subscription_manager with
    | some sm =>
      let success := disable_subscription sm
      ({ action := "stop_subscription", retry := false,
         error_info := { ei with subscription_disabled := some success } }, [success])
    | none =>
      ({ action := "stop_subscription", retry := false, error_info := ei }, [])
  else
    ({ action := "continue", retry := should_retry error_type, error_info := ei }, [])

/-- Direct-format control message consumed by
ErrorHandler.handle_subscription_control_message: the code reads the action
and service keys with default empty string. The Records wrapper parsing for
the SNS event format is not modelled; the embedding starts from the parsed
message dictionary. -/
structure SnsControlMessage where
  action : Option String
  service : Option String
  deriving DecidableEq, Repr

/-- Which subscription operation the local handler invoked, for the trace. -/
inductive SubOp
  | enableOp
  | disableOp
  deriving DecidableEq, Repr

/-- Mirrors ErrorHandler.handle_subscription_control_message on a direct
message: lowercase the action and target service, return true early when
the message targets another service, false without a manager, dispatch
start and enable to enable_subscription, stop and disable to
disable_subscription, otherwise log a warning and return false. The second
component traces which subscription operation was invoked. -/
def handle_subscription_control_message (h : ErrorHandler) (message : SnsControlMessage) :
    Bool × List SubOp :=
  let action := lowerStr (message.action.getD "")
  let target_service := lowerStr (message.service.getD "")
  if target_service ≠ "" ∧ target_service ≠ lowerStr h.service_name then
    (true, [])
  else
    match h.subscription_manager with
    | none => (false, [])
    | some sm =>
      if action = "start" ∨ action = "enable" then
        (enable_subscription sm, [SubOp.enableOp])
      else if action = "stop" ∨ action = "disable" then
        (disable_subscription sm, [SubOp.disableOp])
      else
        (false, [])

/-- Model of the hosting platform as seen by the centralized manager in
services/subscription-manager/handler.py: the mappings of each function
name, whether the listing call for a function succeeds, and whether the
update call for a mapping UUID succeeds. Updates change only mapping
states, never the two outcome predicates. -/
structure Platform where
  mappings : String → List Mapping
  listOk : String → Bool
  updateOk : String → Bool

/-- Mirrors lambda_client.list_event_source_mappings: the mappings of the
function, or a raised ClientError modelled as Except.error. -/
def list_event_source_mappings (p : Platform) (function_name : String) :
    Except String (List Mapping) :=
  if p.listOk function_name then Except.ok (p.mappings function_name)
  else Except.error "platform error"

/-- State rewrite applied by one update call to one stored mapping. -/
def setMappingState (uuid state : String) (m : Mapping) : Mapping :=
  if m.uuid = uuid then { m with state := state } else m

/-- Mirrors lambda_client.update_event_source_mapping: set every stored
mapping with the given UUID to Enabled or Disabled, or raise. -/
def update_event_source_mapping (p : Platform) (uuid : String) (enabled : Bool) :
    Except String Platform :=
  if p.updateOk uuid then
    Except.ok { p with mappings := fun f =>
      (p.mappings f).map (setMappingState uuid (if enabled then "Enabled" else "Disabled")) }
  else Except.error "platform error"

/-- The SQS-backed mappings of a function, as both handlers filter them. -/
def sqsMappings (p : Platform) (function_name : String) : List Mapping :=
  (p.mappings function_name).filter (fun m => arnIsSqs m.eventSourceArn)

/-- One managed function entry of the registry. -/
structure FnConfig where
  function_name : String
  service_name : String
  deriving DecidableEq, Repr

/-- Per-function result dictionary of _enable_function_subscriptions. -/
structure EnableResult where
  success : Bool
  mappings_processed : Nat
  mappings_enabled : Nat
  mappings_already_enabled : Nat
  errors : List String
  deriving DecidableEq, Repr

/-- Per-function result dictionary of _disable_function_subscriptions. -/
structure DisableResult where
  success : Bool
  mappings_processed : Nat
  mappings_disabled : Nat
  mappings_already_disabled : Nat
  errors : List String
  deriving DecidableEq, Repr

/-- Mirrors the for loop of _enable_function_subscriptions over the SQS
mappings snapshot taken from the listing response: Disabled mappings are
updated (a failed update appends to the error list and continues), Enabled
mappings are tallied as already enabled, any other state is only logged. -/
def enableLoop (p : Platform) (ms : List Mapping) (r : EnableResult) :
    EnableResult × Platform :=
  match ms with
  | [] => (r, p)
  | m :: rest =>
    if m.state = "Disabled" then
      match update_event_source_mapping p m.uuid true with
      | Except.ok pNext =>
          enableLoop pNext rest { r with mappings_enabled := r.mappings_enabled + 1 }
      | Except.error e =>
          enableLoop p rest
            { r with errors := r.errors ++ ["Failed to enable mapping " ++ m.uuid ++ ": " ++ e] }
    else if m.state = "Enabled" then
      enableLoop p rest { r with mappings_already_enabled := r.mappings_already_enabled + 1 }
    else
      enableLoop p rest r

/-- Mirrors the for loop of _disable_function_subscriptions, symmetric to
enableLoop with the two states swapped. -/
def disableLoop (p : Platform) (ms : List Mapping) (r : DisableResult) :
    DisableResult × Platform :=
  match ms with
  | [] => (r, p)
  | m :: rest =>
    if m.state = "Enabled" then
      match update_event_source_mapping p m.uuid false with
      | Except.ok pNext =>
          disableLoop pNext rest { r with mappings_disabled := r.mappings_disabled + 1 }
      | Except.error e =>
          disableLoop p rest
            { r with errors := r.errors ++ ["Failed to disable mapping " ++ m.uuid ++ ": " ++ e] }
    else if m.state = "Disabled" then
      disableLoop p rest { r with mappings_already_disabled := r.mappings_already_disabled + 1 }
    else
      disableLoop p rest r

/-- Mirrors SubscriptionManager._enable_function_subscriptions: list the
mappings (a raised listing error yields a failed result with one aggregated
error string and an untouched platform), filter to SQS, run the loop, and
set success false exactly when the error list is non-empty. -/
def enable_function_subscriptions (p : Platform) (cfg : FnConfig) :
    EnableResult × Platform :=
  match list_event_source_mappings p cfg.function_name with
  | Except.error e =>
    ({ success := false, mappings_processed := 0, mappings_enabled := 0,
       mappings_already_enabled := 0,
       errors := ["Failed to list event source mappings: " ++ e] }, p)
  | Except.ok allMappings =>
    let sqs := allMappings.filter (fun m => arnIsSqs m.eventSourceArn)
    let r0 : EnableResult :=
      { success := true, mappings_processed := sqs.length, mappings_enabled := 0,
        mappings_already_enabled := 0, errors := [] }
    let rp := enableLoop p sqs r0
    ({ rp.1 with success := rp.1.errors.isEmpty }, rp.2)

/-- Mirrors SubscriptionManager._disable_function_subscriptions. -/
def disable_function_subscriptions (p : Platform) (cfg : FnConfig) :
    DisableResult × Platform :=
  match list_event_source_mappings p cfg.function_name with
  | Except.error e =>
    ({ success := false, mappings_processed := 0, mappings_disabled := 0,
       mappings_already_disabled := 0,
       errors := ["Failed to list event source mappings: " ++ e] }, p)
  | Except.ok allMappings =>
    let sqs := allMappings.filter (fun m => arnIsSqs m.eventSourceArn)
    let r0 : DisableResult :=
      { success := true, mappings_processed := sqs.length, mappings_disabled := 0,
        mappings_already_disabled := 0, errors := [] }
    let rp := disableLoop p sqs r0
    ({ rp.1 with success := rp.1.errors.isEmpty }, rp.2)

/-- One entry of the functions_processed list in the operation report. -/
inductive ProcEntry
  | enabledEntry (function_name service_name : String) (r : EnableResult)
  | disabledEntry (function_name service_name : String) (r : DisableResult)
  deriving DecidableEq, Repr

/-- Function name recorded in a report entry. -/
def ProcEntry.fnName : ProcEntry → String
  | .enabledEntry f _ _ => f
  | .disabledEntry f _ _ => f

/-- Success flag recorded in a report entry. -/
def ProcEntry.isSuccess : ProcEntry → Bool
  | .enabledEntry _ _ r => r.success
  | .disabledEntry _ _ r => r.success

/-- Error list recorded in a report entry. -/
def ProcEntry.errorsOf : ProcEntry → List String
  | .enabledEntry _ _ r => r.errors
  | .disabledEntry _ _ r => r.errors

/-- Operation result report built by handle_subscription_control. -/
structure CtrlResults where
  action : String
  timestamp : String
  operator : String
  reason : String
  functions_processed : List ProcEntry
  success_count : Nat
  error_count : Nat
  errors : List String
  deriving DecidableEq, Repr

/-- Mirrors the per-consumer loop of handle_subscription_control: process
every registry entry in order, appending its result entry and tallying the
success and error counts. The per-function helpers never raise, so the
except branch of the Python loop body is unreachable in the embedding. -/
def controlLoop (action : String) (reg : List FnConfig) (p : Platform)
    (acc : CtrlResults) : CtrlResults × Platform :=
  match reg with
  | [] => (acc, p)
  | cfg :: rest =>
    if action = "enable" then
      let rp := enable_function_subscriptions p cfg
      controlLoop action rest rp.2
        { acc with
          functions_processed := acc.functions_processed ++
            [ProcEntry.enabledEntry cfg.function_name cfg.service_name rp.1]
          success_count := acc.success_count + (if rp.1.success then 1 else 0)
          error_count := acc.error_count + (if rp.1.success then 0 else 1) }
    else
      let rp := disable_function_subscriptions p cfg
      controlLoop action rest rp.2
        { acc with
          functions_processed := acc.functions_processed ++
            [ProcEntry.disabledEntry cfg.function_name cfg.service_name rp.1]
          success_count := acc.success_count + (if rp.1.success then 1 else 0)
          error_count := acc.error_count + (if rp.1.success then 0 else 1) }

/-- Control message dictionary received by the centralized manager. -/
structure ControlMessage where
  action : Option String
  reason : Option String
  operator : Option String
  timestamp : Option String
  deriving DecidableEq, Repr

/-- Mirrors SubscriptionManager.handle_subscription_control: read the
message fields with their defaults (now stands for the receipt-time default
of the timestamp), lowercase the action, raise ValueError on anything other
than enable or disable before the registry is consulted or any platform
call is made, then run the per-consumer loop. The registry parameter stands
for self.managed_functions after the refresh step. The raised ValueError is
the Except.error result, with the platform returned untouched. -/
def handle_subscription_control (reg : List FnConfig) (p : Platform) (now : String)
    (control_message : ControlMessage) : Except String CtrlResults × Platform :=
  let action := lowerStr (control_message.action.getD "")
  let reason := control_message.reason.getD "Manual control"
  let operator := control_message.operator.getD "system"
  let timestamp := control_message.timestamp.getD now
  if action ≠ "enable" ∧ action ≠ "disable" then
    (Except.error ("Invalid action: " ++ action ++ ". Must be enable or disable"), p)
  else
    let init : CtrlResults :=
      { action := action, timestamp := timestamp, operator := operator, reason := reason,
        functions_processed := [], success_count := 0, error_count := 0, errors := [] }
    let rp := controlLoop action reg p init
    (Except.ok rp.1, rp.2)

/-- One auto-discovered registry record, keeping the fields the claims are
about from the dictionary built in _auto_discover_all_functions. -/
structure DiscoveredFn where
  function_name : String
  service_name : String
  sqs_mappings_count : Nat
  deriving DecidableEq, Repr

/-- Service name derivation in _auto_discover_all_functions:
function_name.replace(function_prefix, empty string), which removes every
occurrence of the prefix string, not only a leading one. -/
def serviceNameOf (pfx function_name : String) : String :=
  String.mk (removeAll pfx.data function_name.data)

/-- Mirrors one iteration of the scan loop in _auto_discover_all_functions:
none models a continue. A function is kept only when its name starts with
the prefix, its derived service name contains no exclude pattern, its
listing call succeeds, and it has at least one SQS mapping. -/
def auto_discover_check (pfx : String) (excludes : List String) (p : Platform)
    (function_name : String) : Option DiscoveredFn :=
  if ¬ startsWithStr function_name pfx then none
  else
    let service_name := serviceNameOf pfx function_name
    if excludes.any (fun e => containsSub e service_name) then none
    else
      match list_event_source_mappings p function_name with
      | Except.error _ => none
      | Except.ok allMappings =>
        let sqs := allMappings.filter (fun m => arnIsSqs m.eventSourceArn)
        if sqs.isEmpty then none
        else some { function_name := function_name, service_name := service_name,
                    sqs_mappings_count := sqs.length }

/-- Mirrors SubscriptionManager._auto_discover_all_functions over the
paginated list of all function names, flattened. -/
def auto_discover_all_functions (pfx : String) (excludes : List String)
    (allFunctionNames : List String) (p : Platform) : List DiscoveredFn :=
  allFunctionNames.filterMap (auto_discover_check pfx excludes p)

/-- Sample consumer-local subscription manager with a known UUID and
working platform update calls, used to instantiate theorems. -/
def smSample : LocalSubscriptionManager :=
  { function_name := "utility-customer-system-dev-payment-processing"
    event_source_mapping_uuid := some "uuid-1"
    updateEnableOk := true
    updateDisableOk := true }

/-- Sample error handler wrapping smSample. -/
def handlerSample : ErrorHandler :=
  { service_name := "payment-processing", subscription_manager := some smSample }

/-- C5: classify_error maps every status code in 400..499 to client_error
and every status code in 500..599 to server_error, for every exception. -/
theorem classify_error_status_ranges (error : Exc) (sc : Int) :
    (400 ≤ sc → sc < 500 → classify_error error (some sc) = ErrorType.client_error) ∧
    (500 ≤ sc → sc < 600 → classify_error error (some sc) = ErrorType.server_error) := by
  refine ⟨fun h1 h2 => ?_, fun h1 h2 => ?_⟩ <;>
    · simp only [classify_error]
      split_ifs <;> first | rfl | omega

/-- C5 witness: the range theorem applied at 404 and at 503. -/
theorem classify_error_status_ranges_witness :
    classify_error ⟨"RuntimeError", "boom"⟩ (some 404) = ErrorType.client_error ∧
    classify_error ⟨"RuntimeError", "boom"⟩ (some 503) = ErrorType.server_error :=
  ⟨(classify_error_status_ranges ⟨"RuntimeError", "boom"⟩ 404).1 (by omega) (by omega),
   (classify_error_status_ranges ⟨"RuntimeError", "boom"⟩ 503).2 (by omega) (by omega)⟩

/-- C6 counterexample: an exception whose message contains timeout but whose
type name is RuntimeError is classified processing_error, not network_error,
when no status code is present: the code never inspects the message text. -/
theorem classify_timeout_message_not_network :
    containsSub "timeout" (lowerStr "Request timeout") = true ∧
    classify_error ⟨"RuntimeError", "Request timeout"⟩ none = ErrorType.processing_error := by
  exact ⟨by decide, by decide⟩

/-- C6 (amended): with no status code, classification depends only on the
exception type name, never on the message text, and yields network_error
exactly for the type names ConnectionError, TimeoutError and ConnectTimeout. -/
theorem classify_error_name_based (name msgA msgB : String) :
    classify_error ⟨name, msgA⟩ none = classify_error ⟨name, msgB⟩ none ∧
    (classify_error ⟨name, msgA⟩ none = ErrorType.network_error ↔
      name = "ConnectionError" ∨ name = "TimeoutError" ∨ name = "ConnectTimeout") := by
  refine ⟨rfl, ?_⟩
  show classifyByName name = ErrorType.network_error ↔ _
  unfold classifyByName
  split_ifs with h1 h2
  · exact iff_of_true rfl h1
  · exact iff_of_false (by decide) h1
  · exact iff_of_false (by decide) h1

/-- C1: for a failure classified client_error, handle_error returns action
continue and never invokes disable; for a failure classified server_error
with a subscription manager configured, it returns action stop_subscription,
invokes disable exactly once, and records the boolean outcome of that call
in the subscription_disabled key of error_info. -/
theorem handle_error_dispatch (h : ErrorHandler) (sm : LocalSubscriptionManager)
    (error : Exc) (md : MessageData) (sc : Option Int)
    (hsm : h.subscription_manager = some sm) :
    (classify_error error sc = ErrorType.client_error →
      (handle_error h error md sc).1.action = "continue" ∧
      (handle_error h error md sc).2 = []) ∧
    (classify_error error sc = ErrorType.server_error →
      (handle_error h error md sc).1.action = "stop_subscription" ∧
      (handle_error h error md sc).2 = [disable_subscription sm] ∧
      (handle_error h error md sc).1.error_info.subscription_disabled =
        some (disable_subscription sm)) := by
  constructor
  · intro hc
    simp [handle_error, hc]
  · intro hs
    simp [handle_error, hs, hsm]

/-- C1 witness: the dispatch theorem applied to a concrete handler, once
with a 400 failure and once with a 500 failure. -/
theorem handle_error_dispatch_witness :
    ((handle_error handlerSample ⟨"Exception", "bad request"⟩ ⟨none, none⟩ (some 400)).1.action
        = "continue" ∧
      (handle_error handlerSample ⟨"Exception", "bad request"⟩ ⟨none, none⟩ (some 400)).2 = []) ∧
    ((handle_error handlerSample ⟨"Exception", "server down"⟩ ⟨none, none⟩ (some 500)).1.action
        = "stop_subscription" ∧
      (handle_error handlerSample ⟨"Exception", "server down"⟩ ⟨none, none⟩ (some 500)).2
        = [disable_subscription smSample] ∧
      (handle_error handlerSample ⟨"Exception", "server down"⟩ ⟨none, none⟩
          (some 500)).1.error_info.subscription_disabled
        = some (disable_subscription smSample)) :=
  ⟨(handle_error_dispatch handlerSample smSample ⟨"Exception", "bad request"⟩ ⟨none, none⟩
      (some 400) rfl).1 (by decide),
   (handle_error_dispatch handlerSample smSample ⟨"Exception", "server down"⟩ ⟨none, none⟩
      (some 500) rfl).2 (by decide)⟩

/-- C2: for every exception, message context and optional status code,
handle_error returns a structured decision whose action is continue or
stop_subscription and whose error_info carries the classification, the
message text and the service name; being a total function over all inputs,
including a failing disable call and a missing subscription manager, it
never propagates an exception. -/
theorem handle_error_total_structured (h : ErrorHandler) (error : Exc)
    (md : MessageData) (sc : Option Int) :
    ((handle_error h error md sc).1.action = "continue" ∨
      (handle_error h error md sc).1.action = "stop_subscription") ∧
    (handle_error h error md sc).1.error_info.error_type = (classify_error error sc).value ∧
    (handle_error h error md sc).1.error_info.error_message = error.message ∧
    (handle_error h error md sc).1.error_info.service = h.service_name := by
  rcases hm : h.subscription_manager with _ | sm <;>
    rcases hc : classify_error error sc <;>
      simp [handle_error, hm, hc, ErrorType.value]

/-- Helper for C9: the first SQS mapping found by the discovery loop is the
head of the SQS-filtered listing. -/
theorem findSqs_eq_filter_head (ms : List Mapping) :
    findSqsMapping ms =
      ((ms.filter fun m => arnIsSqs m.eventSourceArn).head?).map Mapping.uuid := by
  induction ms with
  | nil => rfl
  | cons m rest ih =>
    by_cases hm : arnIsSqs m.eventSourceArn
    · simp [findSqsMapping, hm]
    · simp [findSqsMapping, hm, ih]

/-- C9: binding discovery returns the mapping UUID when exactly one SQS
mapping exists, returns none with a warning log when no SQS mapping exists,
returns none with an error log when the listing call fails, and, being a
total function over all three inputs, never raises to its caller. -/
theorem discover_uuid_behavior :
    (∀ (ms : List Mapping) (m : Mapping),
      ms.filter (fun m => arnIsSqs m.eventSourceArn) = [m] →
      discover_event_source_mapping_uuid (Except.ok ms) = (some m.uuid, DiscoverLog.foundSqs)) ∧
    (∀ ms : List Mapping,
      ms.filter (fun m => arnIsSqs m.eventSourceArn) = [] →
      discover_event_source_mapping_uuid (Except.ok ms) = (none, DiscoverLog.warnNoSqs)) ∧
    (∀ e : String,
      discover_event_source_mapping_uuid (Except.error e) = (none, DiscoverLog.errListFailed)) := by
  refine ⟨fun ms m hf => ?_, fun ms hf => ?_, fun e => rfl⟩
  · simp [discover_event_source_mapping_uuid, findSqs_eq_filter_head, hf]
  · simp [discover_event_source_mapping_uuid, findSqs_eq_filter_head, hf]

/-- C9 witness: the discovery theorem applied to a listing with exactly one
SQS mapping, to a listing without SQS mappings, and to a failed listing. -/
theorem discover_uuid_behavior_witness :
    discover_event_source_mapping_uuid
        (Except.ok [⟨"uuid-0", "Enabled", "arn:aws:kinesis:s"⟩,
          ⟨"uuid-1", "Enabled", "arn:aws:sqs:us-east-1:q"⟩])
      = (some "uuid-1", DiscoverLog.foundSqs) ∧
    discover_event_source_mapping_uuid (Except.ok [⟨"uuid-0", "Enabled", "arn:aws:kinesis:s"⟩])
      = (none, DiscoverLog.warnNoSqs) ∧
    discover_event_source_mapping_uuid (Except.error "boom")
      = (none, DiscoverLog.errListFailed) :=
  ⟨discover_uuid_behavior.1 _ ⟨"uuid-1", "Enabled", "arn:aws:sqs:us-east-1:q"⟩ (by decide),
   discover_uuid_behavior.2.1 _ (by decide),
   discover_uuid_behavior.2.2 "boom"⟩

/-- C10: the consumer-local control-message handler accepts start and stop,
case-insensitively, as synonyms of enable and disable, invoking the
corresponding subscription operation, and returns false without invoking
anything for every other action, rather than raising. -/
theorem control_message_synonyms (h : ErrorHandler) (sm : LocalSubscriptionManager)
    (msg : SnsControlMessage)
    (hsm : h.subscription_manager = some sm)
    (htgt : lowerStr (msg.service.getD "") = "" ∨
      lowerStr (msg.service.getD "") = lowerStr h.service_name) :
    (lowerStr (msg.action.getD "") = "start" →
      handle_subscription_control_message h msg = (enable_subscription sm, [SubOp.enableOp])) ∧
    (lowerStr (msg.action.getD "") = "stop" →
      handle_subscription_control_message h msg = (disable_subscription sm, [SubOp.disableOp])) ∧
    (lowerStr (msg.action.getD "") ∉ (["start", "enable", "stop", "disable"] : List String) →
      handle_subscription_control_message h msg = (false, [])) := by
  have htc : ¬ (lowerStr (msg.service.getD "") ≠ "" ∧
      lowerStr (msg.service.getD "") ≠ lowerStr h.service_name) := by
    rcases htgt with h1 | h1 <;> simp [h1]
  refine ⟨fun ha => ?_, fun ha => ?_, fun ha => ?_⟩
  · simp [handle_subscription_control_message, htc, hsm, ha]
  · simp [handle_subscription_control_message, htc, hsm, ha]
  · simp only [List.mem_cons, List.not_mem_nil, or_false] at ha
    push_neg at ha
    obtain ⟨h1, h2, h3, h4⟩ := ha
    simp [handle_subscription_control_message, htc, hsm, h1, h2, h3, h4]

/-- C10 witness: the synonym theorem applied to a concrete handler with the
actions START, Stop and PAUSE. -/
theorem control_message_synonyms_witness :
    handle_subscription_control_message handlerSample ⟨some "START", none⟩
      = (enable_subscription smSample, [SubOp.enableOp]) ∧
    handle_subscription_control_message handlerSample ⟨some "Stop", none⟩
      = (disable_subscription smSample, [SubOp.disableOp]) ∧
    handle_subscription_control_message handlerSample ⟨some "PAUSE", none⟩
      = (false, []) :=
  ⟨(control_message_synonyms handlerSample smSample ⟨some "START", none⟩ rfl
      (Or.inl rfl)).1 (by decide),
   (control_message_synonyms handlerSample smSample ⟨some "Stop", none⟩ rfl
      (Or.inl rfl)).2.1 (by decide),
   (control_message_synonyms handlerSample smSample ⟨some "PAUSE", none⟩ rfl
      (Or.inl rfl)).2.2 (by decide)⟩

/-- Platform with no mappings, every listing call succeeding and every
update call succeeding, used to instantiate theorems. -/
def platformEmpty : Platform :=
  { mappings := fun _ => [], listOk := fun _ => true, updateOk := fun _ => true }

/-- C3 counterexample: the action ENABLE is not exactly enable or disable,
yet handle_subscription_control does not raise: the code lowercases the
action first and processes the message normally. -/
theorem handle_subscription_control_uppercase_accepted :
    ("ENABLE" ≠ "enable" ∧ "ENABLE" ≠ "disable") ∧
    (handle_subscription_control [] platformEmpty "t0"
        { action := some "ENABLE", reason := none, operator := none,
          timestamp := none }).1.toOption
      = some { action := "enable", timestamp := "t0", operator := "system",
               reason := "Manual control", functions_processed := [], success_count := 0,
               error_count := 0, errors := [] } :=
  ⟨⟨by decide, by decide⟩, by decide⟩

/-- C3 (amended): for every control message whose action, once lowercased,
is neither enable nor disable (e.g. pause), handle_subscription_control
raises a ValueError before the per-consumer toggling loop runs and before
any binding is listed or updated: the result is the explicit error and the
platform is returned untouched, for every registry and platform state. The
invalid action is never silently defaulted or ignored. -/
theorem handle_subscription_control_invalid_action_rejected (reg : List FnConfig)
    (p : Platform) (now : String) (msg : ControlMessage)
    (h1 : lowerStr (msg.action.getD "") ≠ "enable")
    (h2 : lowerStr (msg.action.getD "") ≠ "disable") :
    handle_subscription_control reg p now msg =
      (Except.error ("Invalid action: " ++ lowerStr (msg.action.getD "") ++
        ". Must be enable or disable"), p) := by
  simp [handle_subscription_control, h1, h2]

/-- C3 witness: the rejection theorem applied to the action pause on a
non-empty registry. -/
theorem handle_subscription_control_invalid_action_rejected_witness :
    handle_subscription_control [{ function_name := "f1", service_name := "s1" }]
        platformEmpty "t0"
        { action := some "pause", reason := none, operator := none, timestamp := none } =
      (Except.error "Invalid action: pause. Must be enable or disable", platformEmpty) :=
  handle_subscription_control_invalid_action_rejected
    [{ function_name := "f1", service_name := "s1" }] platformEmpty "t0"
    { action := some "pause", reason := none, operator := none, timestamp := none }
    (by decide) (by decide)

/-- Helper: a successful update call changes only the stored mapping states,
never the listing and update outcome predicates. -/
theorem update_preserves_flags (p : Platform) (u : String) (b : Bool) (pNext : Platform)
    (h : update_event_source_mapping p u b = Except.ok pNext) :
    pNext.listOk = p.listOk ∧ pNext.updateOk = p.updateOk := by
  unfold update_event_source_mapping at h
  split_ifs at h <;> cases h <;> exact ⟨rfl, rfl⟩

/-- Helper: the enable loop never discards accumulated errors. -/
theorem enableLoop_errors_nonempty (ms : List Mapping) :
    ∀ (p : Platform) (r : EnableResult), r.errors ≠ [] →
      (enableLoop p ms r).1.errors ≠ [] := by
  induction ms with
  | nil => intro p r h; exact h
  | cons m rest ih =>
    intro p r h
    unfold enableLoop
    split_ifs with h1 h2
    · cases hu : update_event_source_mapping p m.uuid true with
      | ok pNext => exact ih _ _ h
      | error e => exact ih _ _ (by simp)
    · exact ih _ _ h
    · exact ih _ _ h

/-- Helper: the disable loop never discards accumulated errors. -/
theorem disableLoop_errors_nonempty (ms : List Mapping) :
    ∀ (p : Platform) (r : DisableResult), r.errors ≠ [] →
      (disableLoop p ms r).1.errors ≠ [] := by
  induction ms with
  | nil => intro p r h; exact h
  | cons m rest ih =>
    intro p r h
    unfold disableLoop
    split_ifs with h1 h2
    · cases hu : update_event_source_mapping p m.uuid false with
      | ok pNext => exact ih _ _ h
      | error e => exact ih _ _ (by simp)
    · exact ih _ _ h
    · exact ih _ _ h

/-- Helper: a Disabled mapping in the snapshot whose update call fails makes
the enable loop end with a non-empty error list. -/
theorem enableLoop_update_failure (ms : List Mapping) :
    ∀ (p : Platform) (r : EnableResult) (m : Mapping), m ∈ ms → m.state = "Disabled" →
      p.updateOk m.uuid = false → (enableLoop p ms r).1.errors ≠ [] := by
  induction ms with
  | nil => intro p r m hm _ _; cases hm
  | cons m0 rest ih =>
    intro p r m hm hst hupd
    rcases List.mem_cons.mp hm with rfl | hm2
    · unfold enableLoop
      rw [if_pos hst]
      have hu : update_event_source_mapping p m.uuid true = Except.error "platform error" := by
        unfold update_event_source_mapping
        rw [if_neg]
        simp [hupd]
      rw [hu]
      exact enableLoop_errors_nonempty rest _ _ (by simp)
    · unfold enableLoop
      split_ifs with h1 h2
      · cases hu : update_event_source_mapping p m0.uuid true with
        | ok pNext =>
          have hflags := update_preserves_flags p m0.uuid true pNext hu
          exact ih pNext _ m hm2 hst (by rw [hflags.2]; exact hupd)
        | error e => exact ih p _ m hm2 hst hupd
      · exact ih p _ m hm2 hst hupd
      · exact ih p _ m hm2 hst hupd

/-- Helper: an Enabled mapping in the snapshot whose update call fails makes
the disable loop end with a non-empty error list. -/
theorem disableLoop_update_failure (ms : List Mapping) :
    ∀ (p : Platform) (r : DisableResult) (m : Mapping), m ∈ ms → m.state = "Enabled" →
      p.updateOk m.uuid = false → (disableLoop p ms r).1.errors ≠ [] := by
  induction ms with
  | nil => intro p r m hm _ _; cases hm
  | cons m0 rest ih =>
    intro p r m hm hst hupd
    rcases List.mem_cons.mp hm with rfl | hm2
    · unfold disableLoop
      rw [if_pos hst]
      have hu : update_event_source_mapping p m.uuid false = Except.error "platform error" := by
        unfold update_event_source_mapping
        rw [if_neg]
        simp [hupd]
      rw [hu]
      exact disableLoop_errors_nonempty rest _ _ (by simp)
    · unfold disableLoop
      split_ifs with h1 h2
      · cases hu : update_event_source_mapping p m0.uuid false with
        | ok pNext =>
          have hflags := update_preserves_flags p m0.uuid false pNext hu
          exact ih pNext _ m hm2 hst (by rw [hflags.2]; exact hupd)
        | error e => exact ih p _ m hm2 hst hupd
      · exact ih p _ m hm2 hst hupd
      · exact ih p _ m hm2 hst hupd

/-- Helper: a non-empty error list forces the success flag of the enable
result to false, since the code sets success from the error list. -/
theorem enable_fn_success_of_errors (p : Platform) (cfg : FnConfig)
    (hl : p.listOk cfg.function_name = true)
    (hne : (enableLoop p (sqsMappings p cfg.function_name)
      { success := true, mappings_processed := (sqsMappings p cfg.function_name).length,
        mappings_enabled := 0, mappings_already_enabled := 0, errors := [] }).1.errors ≠ []) :
    (enable_function_subscriptions p cfg).1.success = false ∧
    (enable_function_subscriptions p cfg).1.errors ≠ [] := by
  have hlist : list_event_source_mappings p cfg.function_name =
      Except.ok (p.mappings cfg.function_name) := by
    simp [list_event_source_mappings, hl]
  unfold enable_function_subscriptions
  rw [hlist]
  refine ⟨?_, hne⟩
  cases hcase : (enableLoop p (sqsMappings p cfg.function_name)
      { success := true, mappings_processed := (sqsMappings p cfg.function_name).length,
        mappings_enabled := 0, mappings_already_enabled := 0, errors := [] }).1.errors with
  | nil => exact absurd hcase hne
  | cons a t => simp only [sqsMappings] at hcase; simp [hcase]

/-- Helper: a non-empty error list forces the success flag of the disable
result to false. -/
theorem disable_fn_success_of_errors (p : Platform) (cfg : FnConfig)
    (hl : p.listOk cfg.function_name = true)
    (hne : (disableLoop p (sqsMappings p cfg.function_name)
      { success := true, mappings_processed := (sqsMappings p cfg.function_name).length,
        mappings_disabled := 0, mappings_already_disabled := 0, errors := [] }).1.errors ≠ []) :
    (disable_function_subscriptions p cfg).1.success = false ∧
    (disable_function_subscriptions p cfg).1.errors ≠ [] := by
  have hlist : list_event_source_mappings p cfg.function_name =
      Except.ok (p.mappings cfg.function_name) := by
    simp [list_event_source_mappings, hl]
  unfold disable_function_subscriptions
  rw [hlist]
  refine ⟨?_, hne⟩
  cases hcase : (disableLoop p (sqsMappings p cfg.function_name)
      { success := true, mappings_processed := (sqsMappings p cfg.function_name).length,
        mappings_disabled := 0, mappings_already_disabled := 0, errors := [] }).1.errors with
  | nil => exact absurd hcase hne
  | cons a t => simp only [sqsMappings] at hcase; simp [hcase]

/-- Helper: the per-consumer loop appends exactly one report entry per
registry member, in registry order, carrying that member's function name,
regardless of any per-consumer failures. -/
theorem controlLoop_entries (reg : List FnConfig) :
    ∀ (action : String) (p : Platform) (acc : CtrlResults),
      ∃ entries, (controlLoop action reg p acc).1.functions_processed =
          acc.functions_processed ++ entries ∧
        entries.map ProcEntry.fnName = reg.map FnConfig.function_name := by
  induction reg with
  | nil => intro action p acc; exact ⟨[], by simp [controlLoop], by simp⟩
  | cons cfg rest ih =>
    intro action p acc
    unfold controlLoop
    split_ifs with ha
    · obtain ⟨entries, he, hn⟩ := ih action (enable_function_subscriptions p cfg).2 _
      refine ⟨ProcEntry.enabledEntry cfg.function_name cfg.service_name
          (enable_function_subscriptions p cfg).1 :: entries, ?_, ?_⟩
      · rw [he]; simp
      · simp [hn, ProcEntry.fnName]
    · obtain ⟨entries, he, hn⟩ := ih action (disable_function_subscriptions p cfg).2 _
      refine ⟨ProcEntry.disabledEntry cfg.function_name cfg.service_name
          (disable_function_subscriptions p cfg).1 :: entries, ?_, ?_⟩
      · rw [he]; simp
      · simp [hn, ProcEntry.fnName]

/-- C4: a platform failure while listing one consumer, or while updating one
of its bindings, is recorded in that consumer's own result entry as a
non-empty error list with success false, and for every valid action the
report still contains exactly one entry per registry member, in order,
carrying its function name: no failure aborts the processing of siblings. -/
theorem apply_control_per_consumer_isolation (p : Platform) (cfg : FnConfig)
    (reg : List FnConfig) (now : String) (msg : ControlMessage) :
    (p.listOk cfg.function_name = false →
      (enable_function_subscriptions p cfg).1.success = false ∧
      (enable_function_subscriptions p cfg).1.errors ≠ [] ∧
      (disable_function_subscriptions p cfg).1.success = false ∧
      (disable_function_subscriptions p cfg).1.errors ≠ []) ∧
    (∀ m : Mapping, p.listOk cfg.function_name = true →
      m ∈ sqsMappings p cfg.function_name → p.updateOk m.uuid = false →
      (m.state = "Disabled" →
        (enable_function_subscriptions p cfg).1.success = false ∧
        (enable_function_subscriptions p cfg).1.errors ≠ []) ∧
      (m.state = "Enabled" →
        (disable_function_subscriptions p cfg).1.success = false ∧
        (disable_function_subscriptions p cfg).1.errors ≠ [])) ∧
    ((lowerStr (msg.action.getD "") = "enable" ∨ lowerStr (msg.action.getD "") = "disable") →
      ∃ res pFin, handle_subscription_control reg p now msg = (Except.ok res, pFin) ∧
        res.functions_processed.map ProcEntry.fnName = reg.map FnConfig.function_name) := by
  refine ⟨fun hl => ?_, fun m hl hm hupd => ?_, fun hact => ?_⟩
  · have he : list_event_source_mappings p cfg.function_name =
        Except.error "platform error" := by
      simp [list_event_source_mappings, hl]
    refine ⟨?_, ?_, ?_, ?_⟩ <;>
      simp [enable_function_subscriptions, disable_function_subscriptions, he]
  · constructor
    · intro hst
      exact enable_fn_success_of_errors p cfg hl
        (enableLoop_update_failure _ p _ m hm hst hupd)
    · intro hst
      exact disable_fn_success_of_errors p cfg hl
        (disableLoop_update_failure _ p _ m hm hst hupd)
  · have hcond : ¬ (lowerStr (msg.action.getD "") ≠ "enable" ∧
        lowerStr (msg.action.getD "") ≠ "disable") := by
      rcases hact with h1 | h1 <;> simp [h1]
    simp only [handle_subscription_control]
    rw [if_neg hcond]
    obtain ⟨entries, he, hn⟩ := controlLoop_entries reg (lowerStr (msg.action.getD ""))
      p { action := lowerStr (msg.action.getD ""), timestamp := msg.timestamp.getD now,
          operator := msg.operator.getD "system", reason := msg.reason.getD "Manual control",
          functions_processed := [], success_count := 0, error_count := 0, errors := [] }
    refine ⟨_, _, rfl, ?_⟩
    rw [he]
    simpa using hn

/-- Sample platform for the isolation witness: consumer fnA cannot be
listed, consumer fnB has one Disabled SQS mapping that updates fine,
consumer fnC has one Disabled SQS mapping whose update call fails. -/
def platformIso : Platform :=
  { mappings := fun f =>
      if f = "fnB" then [⟨"u1", "Disabled", "arn:aws:sqs:qB"⟩]
      else if f = "fnC" then [⟨"u2", "Disabled", "arn:aws:sqs:qC"⟩]
      else []
    listOk := fun f => f != "fnA"
    updateOk := fun u => u != "u2" }

/-- Sample registry of the three consumers above. -/
def regIso : List FnConfig := [⟨"fnA", "a"⟩, ⟨"fnB", "b"⟩, ⟨"fnC", "c"⟩]

/-- Sample enable control message. -/
def msgEnable : ControlMessage :=
  { action := some "enable", reason := none, operator := none, timestamp := none }

/-- C4 witness: the isolation theorem applied to the concrete platform: the
unlistable consumer fails, the consumer with the failing update fails, and
the report of one apply call still records all three consumers in order. -/
theorem apply_control_per_consumer_isolation_witness :
    ((enable_function_subscriptions platformIso ⟨"fnA", "a"⟩).1.success = false ∧
      (enable_function_subscriptions platformIso ⟨"fnA", "a"⟩).1.errors ≠ []) ∧
    ((enable_function_subscriptions platformIso ⟨"fnC", "c"⟩).1.success = false ∧
      (enable_function_subscriptions platformIso ⟨"fnC", "c"⟩).1.errors ≠ []) ∧
    (∃ res pFin,
      handle_subscription_control regIso platformIso "t0" msgEnable = (Except.ok res, pFin) ∧
      res.functions_processed.map ProcEntry.fnName = regIso.map FnConfig.function_name) :=
  ⟨(fun hconj => ⟨hconj.1, hconj.2.1⟩)
      ((apply_control_per_consumer_isolation platformIso ⟨"fnA", "a"⟩ regIso "t0"
        msgEnable).1 (by decide)),
   ((apply_control_per_consumer_isolation platformIso ⟨"fnC", "c"⟩ regIso "t0"
        msgEnable).2.1 ⟨"u2", "Disabled", "arn:aws:sqs:qC"⟩
        (by decide) (by decide) (by decide)).1 (by decide),
   (apply_control_per_consumer_isolation platformIso ⟨"fnA", "a"⟩ regIso "t0"
        msgEnable).2.2 (Or.inl (by decide))⟩

/-- C8: when the listing calls of the prefix-matching candidates succeed,
auto-discovery returns exactly the functions that pass all three filters:
name starts with the prefix, derived service name contains no exclude
pattern as a substring, and at least one SQS mapping exists; each survivor
is recorded with its derived service name and SQS mapping count, and a
candidate failing any one filter is dropped even if it passes the others. -/
theorem auto_discover_filter (pfx : String) (excludes : List String)
    (names : List String) (p : Platform)
    (hlist : ∀ n ∈ names, startsWithStr n pfx = true → p.listOk n = true) :
    auto_discover_all_functions pfx excludes names p =
      (names.filter (fun n =>
        startsWithStr n pfx &&
        !(excludes.any (fun e => containsSub e (serviceNameOf pfx n))) &&
        !(sqsMappings p n).isEmpty)).map
        (fun n => { function_name := n, service_name := serviceNameOf pfx n,
                    sqs_mappings_count := (sqsMappings p n).length }) := by
  induction names with
  | nil => rfl
  | cons n rest ih =>
    have hrest := ih (fun x hx h => hlist x (List.mem_cons_of_mem _ hx) h)
    by_cases h1 : startsWithStr n pfx = true
    · by_cases h2 : excludes.any (fun e => containsSub e (serviceNameOf pfx n)) = true
      · simpa [auto_discover_all_functions, auto_discover_check, h1, h2] using hrest
      · have hl : p.listOk n = true := hlist n (List.mem_cons_self n rest) h1
        have hlE : list_event_source_mappings p n = Except.ok (p.mappings n) := by
          simp [list_event_source_mappings, hl]
        by_cases h3 : ((p.mappings n).filter (fun m => arnIsSqs m.eventSourceArn)).isEmpty = true
        · simpa [auto_discover_all_functions, auto_discover_check, h1, h2, hlE, h3,
            sqsMappings] using hrest
        · simpa [auto_discover_all_functions, auto_discover_check, h1, h2, hlE, h3,
            sqsMappings] using hrest
    · simpa [auto_discover_all_functions, auto_discover_check, h1] using hrest

/-- Sample platform for the discovery witness: the bank-account consumer and
the manager itself both have one SQS mapping, the empty service has none. -/
def platformDisc : Platform :=
  { mappings := fun f =>
      if f = "utility-customer-system-dev-bank-account-setup" then
        [⟨"u1", "Enabled", "arn:aws:sqs:q1"⟩]
      else if f = "utility-customer-system-dev-subscription-manager" then
        [⟨"u2", "Enabled", "arn:aws:sqs:q2"⟩]
      else []
    listOk := fun _ => true
    updateOk := fun _ => true }

/-- Sample scanned function names for the discovery witness. -/
def namesDisc : List String :=
  ["utility-customer-system-dev-bank-account-setup",
   "utility-customer-system-dev-subscription-manager",
   "utility-customer-system-dev-empty-service",
   "other-function"]

/-- C8 witness: the filter theorem applied to the concrete scan: the manager
is dropped by the exclude pattern despite prefix and bindings, the service
without bindings is dropped despite prefix and no exclusion, the non-prefix
name is dropped, and only the bank-account consumer is registered. -/
theorem auto_discover_filter_witness :
    auto_discover_all_functions "utility-customer-system-dev-" ["subscription-manager"]
        namesDisc platformDisc =
      [{ function_name := "utility-customer-system-dev-bank-account-setup",
         service_name := "bank-account-setup", sqs_mappings_count := 1 }] := by
  rw [auto_discover_filter "utility-customer-system-dev-" ["subscription-manager"]
    namesDisc platformDisc (by decide)]
  decide

/-- Combined effect on one stored mapping of the successful enable updates
issued for a set of mapping UUIDs: set Enabled when hit, untouched else. -/
def setEnabledIf (uuids : List String) (m : Mapping) : Mapping :=
  if m.uuid ∈ uuids then { m with state := "Enabled" } else m

/-- Helper: setEnabledIf keeps the UUID. -/
theorem setEnabledIf_uuid (uuids : List String) (m : Mapping) :
    (setEnabledIf uuids m).uuid = m.uuid := by
  unfold setEnabledIf
  split_ifs <;> rfl

/-- Helper: setEnabledIf keeps the EventSourceArn. -/
theorem setEnabledIf_arn (uuids : List String) (m : Mapping) :
    (setEnabledIf uuids m).eventSourceArn = m.eventSourceArn := by
  unfold setEnabledIf
  split_ifs <;> rfl

/-- Helper: setEnabledIf sets the state of a hit mapping to Enabled. -/
theorem setEnabledIf_state_of_mem (uuids : List String) (m : Mapping)
    (h : m.uuid ∈ uuids) : (setEnabledIf uuids m).state = "Enabled" := by
  unfold setEnabledIf
  rw [if_pos h]

/-- Helper: one enable update followed by the combined effect of later ones
equals the combined effect of the whole update list. -/
theorem setEnabledIf_comp (u : String) (uuids : List String) (m : Mapping) :
    setEnabledIf uuids (setMappingState u "Enabled" m) = setEnabledIf (u :: uuids) m := by
  unfold setEnabledIf setMappingState
  by_cases h1 : m.uuid = u
  · subst h1
    by_cases h2 : m.uuid ∈ uuids <;> simp [h2]
  · by_cases h2 : m.uuid ∈ uuids <;> simp [h1, h2]

/-- Helper: mappings whose UUIDs avoid the update set are left unchanged. -/
theorem map_setEnabledIf_eq_of_disjoint (uuids : List String) (l : List Mapping)
    (h : ∀ m ∈ l, m.uuid ∉ uuids) :
    l.map (setEnabledIf uuids) = l := by
  induction l with
  | nil => rfl
  | cons m t ih =>
    simp only [List.map_cons]
    rw [ih (fun x hx => h x (List.mem_cons_of_mem _ hx))]
    unfold setEnabledIf
    rw [if_neg (h m (List.mem_cons_self m t))]

/-- Helper: UUID disjointness of two functions means no mapping of the
second carries a UUID from the SQS update set of the first. -/
theorem disjoint_not_uuid_mem (p : Platform) (fn1 fn2 : String)
    (hd : ∀ m ∈ p.mappings fn1, ∀ m2 ∈ p.mappings fn2, m.uuid ≠ m2.uuid) :
    ∀ m2 ∈ p.mappings fn2, m2.uuid ∉ (sqsMappings p fn1).map Mapping.uuid := by
  intro m2 hm2 hmem
  obtain ⟨m1, hm1, huu⟩ := List.mem_map.mp hmem
  exact hd m1 (List.mem_of_mem_filter hm1) m2 hm2 huu

/-- Helper: enabling the SQS mappings of one function leaves the mappings
of a UUID-disjoint function untouched. -/
theorem mappings_unchanged_of_disjoint (p : Platform) (fn1 fn2 : String)
    (hd : ∀ m ∈ p.mappings fn1, ∀ m2 ∈ p.mappings fn2, m.uuid ≠ m2.uuid) :
    (p.mappings fn2).map (setEnabledIf ((sqsMappings p fn1).map Mapping.uuid)) =
      p.mappings fn2 :=
  map_setEnabledIf_eq_of_disjoint _ _ (disjoint_not_uuid_mem p fn1 fn2 hd)

/-- Helper: the SQS filter commutes with the state rewrites, which keep
every EventSourceArn. -/
theorem filter_sqs_map_setEnabledIf (S : List String) (l : List Mapping) :
    (l.map (setEnabledIf S)).filter (fun m => arnIsSqs m.eventSourceArn) =
      (l.filter (fun m => arnIsSqs m.eventSourceArn)).map (setEnabledIf S) := by
  induction l with
  | nil => rfl
  | cons m t ih =>
    by_cases h : arnIsSqs m.eventSourceArn
    · simp [setEnabledIf_arn, h, ih]
    · simp [setEnabledIf_arn, h, ih]

/-- Helper: a successful enable update call, written with the state rewrite
it applies to the stored mappings. -/
theorem update_ok_eq (p : Platform) (u : String) (h : p.updateOk u = true) :
    update_event_source_mapping p u true = Except.ok
      { p with mappings := fun f => (p.mappings f).map (setMappingState u "Enabled") } := by
  simp [update_event_source_mapping, h]

/-- Helper: on a snapshot of all-Disabled mappings with every update call
succeeding, the enable loop enables every snapshot entry and applies the
combined state rewrite to the platform. -/
theorem enableLoop_all_disabled (ms : List Mapping) :
    ∀ (p : Platform) (r : EnableResult),
      (∀ u, p.updateOk u = true) → (∀ m ∈ ms, m.state = "Disabled") →
      enableLoop p ms r =
        ({ r with mappings_enabled := r.mappings_enabled + ms.length },
         { p with mappings := fun f =>
             (p.mappings f).map (setEnabledIf (ms.map Mapping.uuid)) }) := by
  induction ms with
  | nil =>
    intro p r hupd hst
    have hmapsEq : (fun f => (p.mappings f).map
        (setEnabledIf (([] : List Mapping).map Mapping.uuid))) = p.mappings := by
      funext f
      exact map_setEnabledIf_eq_of_disjoint _ _ (fun m _ h => List.not_mem_nil _ h)
    show (r, p) = _
    rw [hmapsEq]
    rfl
  | cons m rest ih =>
    intro p r hupd hst
    have hstm : m.state = "Disabled" := hst m (List.mem_cons_self _ _)
    have hu := update_ok_eq p m.uuid (hupd m.uuid)
    unfold enableLoop
    rw [if_pos hstm, hu]
    show enableLoop
      { p with mappings := fun f => (p.mappings f).map (setMappingState m.uuid "Enabled") }
      rest { r with mappings_enabled := r.mappings_enabled + 1 } = _
    rw [ih { p with mappings := fun f =>
        (p.mappings f).map (setMappingState m.uuid "Enabled") }
      { r with mappings_enabled := r.mappings_enabled + 1 }
      (fun u => hupd u) (fun m2 hm2 => hst m2 (List.mem_cons_of_mem _ hm2))]
    cases p with
    | mk maps lok uok =>
      cases r with
      | mk su mp me ma er =>
        simp only [Prod.mk.injEq]
        constructor
        · congr 1
          simp only [List.length_cons]
          omega
        · congr 1
          funext f
          rw [List.map_map]
          have hfun : (setEnabledIf (rest.map Mapping.uuid) ∘
              setMappingState m.uuid "Enabled") =
              setEnabledIf ((m :: rest).map Mapping.uuid) := by
            funext x
            exact setEnabledIf_comp m.uuid (rest.map Mapping.uuid) x
          rw [hfun]

/-- Helper: on a snapshot of all-Enabled mappings the enable loop only
tallies them as already enabled and leaves the platform untouched. -/
theorem enableLoop_all_enabled (ms : List Mapping) :
    ∀ (p : Platform) (r : EnableResult), (∀ m ∈ ms, m.state = "Enabled") →
      enableLoop p ms r =
        ({ r with mappings_already_enabled := r.mappings_already_enabled + ms.length }, p) := by
  induction ms with
  | nil =>
    intro p r hst
    rfl
  | cons m rest ih =>
    intro p r hst
    have hstm : m.state = "Enabled" := hst m (List.mem_cons_self _ _)
    unfold enableLoop
    rw [if_neg (by simp [hstm]), if_pos hstm]
    rw [ih p { r with mappings_already_enabled := r.mappings_already_enabled + 1 }
      (fun m2 hm2 => hst m2 (List.mem_cons_of_mem _ hm2))]
    cases r with
    | mk su mp me ma er =>
      simp only [Prod.mk.injEq]
      constructor
      · congr 1
        simp only [List.length_cons]
        omega
      · trivial

/-- Per-function report of a fully successful enable pass over n Disabled
SQS mappings. -/
def fullEnableResult (n : Nat) : EnableResult :=
  { success := true, mappings_processed := n, mappings_enabled := n,
    mappings_already_enabled := 0, errors := [] }

/-- Per-function report of an enable pass over n already-Enabled SQS
mappings: nothing changes. -/
def alreadyEnableResult (n : Nat) : EnableResult :=
  { success := true, mappings_processed := n, mappings_enabled := 0,
    mappings_already_enabled := n, errors := [] }

/-- Report entry of a consumer whose SQS mappings were all freshly enabled. -/
def enabledFullEntry (p : Platform) (c : FnConfig) : ProcEntry :=
  ProcEntry.enabledEntry c.function_name c.service_name
    (fullEnableResult (sqsMappings p c.function_name).length)

/-- Report entry of a consumer whose SQS mappings were all already enabled. -/
def enabledAlreadyEntry (p : Platform) (c : FnConfig) : ProcEntry :=
  ProcEntry.enabledEntry c.function_name c.service_name
    (alreadyEnableResult (sqsMappings p c.function_name).length)

/-- State rewrite applied to the whole platform by enabling all SQS
mappings of one function. -/
def enableSqsOf (p : Platform) (function_name : String) : Platform :=
  { p with mappings := fun f =>
      (p.mappings f).map (setEnabledIf ((sqsMappings p function_name).map Mapping.uuid)) }

/-- Accumulator state after the loop records one successful entry. -/
def accAfter (acc : CtrlResults) (e : ProcEntry) : CtrlResults :=
  { acc with
    functions_processed := acc.functions_processed ++ [e]
    success_count := acc.success_count + 1 }

/-- Helper: one successful enable step of the per-consumer loop. -/
theorem controlLoop_cons_enable (cfg : FnConfig) (rest : List FnConfig) (p : Platform)
    (acc : CtrlResults) (r : EnableResult) (pNext : Platform)
    (hA : enable_function_subscriptions p cfg = (r, pNext)) (hs : r.success = true) :
    controlLoop "enable" (cfg :: rest) p acc =
      controlLoop "enable" rest pNext
        (accAfter acc (ProcEntry.enabledEntry cfg.function_name cfg.service_name r)) := by
  conv_lhs => rw [controlLoop]
  rw [if_pos rfl]
  simp [hA, hs, accAfter]

/-- Helper: enabling one consumer whose SQS mappings are all Disabled, on a
platform where every update succeeds, enables them all and rewrites the
platform state accordingly. -/
theorem enable_fn_all_disabled (p : Platform) (cfg : FnConfig)
    (hl : p.listOk cfg.function_name = true)
    (hupd : ∀ u, p.updateOk u = true)
    (hst : ∀ m ∈ sqsMappings p cfg.function_name, m.state = "Disabled") :
    enable_function_subscriptions p cfg =
      (fullEnableResult (sqsMappings p cfg.function_name).length,
       enableSqsOf p cfg.function_name) := by
  have hlE : list_event_source_mappings p cfg.function_name =
      Except.ok (p.mappings cfg.function_name) := by
    simp [list_event_source_mappings, hl]
  have hloop := enableLoop_all_disabled (sqsMappings p cfg.function_name) p
    { success := true, mappings_processed := (sqsMappings p cfg.function_name).length,
      mappings_enabled := 0, mappings_already_enabled := 0, errors := [] } hupd hst
  simp only [sqsMappings] at hloop
  unfold enable_function_subscriptions
  rw [hlE]
  simp only []
  rw [hloop]
  simp [fullEnableResult, sqsMappings, enableSqsOf]

/-- Helper: enabling one consumer whose SQS mappings are all Enabled only
counts them as already enabled and leaves the platform untouched. -/
theorem enable_fn_all_enabled (p : Platform) (cfg : FnConfig)
    (hl : p.listOk cfg.function_name = true)
    (hst : ∀ m ∈ sqsMappings p cfg.function_name, m.state = "Enabled") :
    enable_function_subscriptions p cfg =
      (alreadyEnableResult (sqsMappings p cfg.function_name).length, p) := by
  have hlE : list_event_source_mappings p cfg.function_name =
      Except.ok (p.mappings cfg.function_name) := by
    simp [list_event_source_mappings, hl]
  have hloop := enableLoop_all_enabled (sqsMappings p cfg.function_name) p
    { success := true, mappings_processed := (sqsMappings p cfg.function_name).length,
      mappings_enabled := 0, mappings_already_enabled := 0, errors := [] } hst
  simp only [sqsMappings] at hloop
  unfold enable_function_subscriptions
  rw [hlE]
  simp only []
  rw [hloop]
  simp [alreadyEnableResult, sqsMappings]

/-- UUID disjointness across the registry: no two distinct registry members
share a mapping UUID on the platform. This reflects the AWS invariant that
event source mapping UUIDs are globally unique. -/
def regUuidsDisjoint (p : Platform) (reg : List FnConfig) : Prop :=
  reg.Pairwise (fun c c2 => ∀ m ∈ p.mappings c.function_name,
    ∀ m2 ∈ p.mappings c2.function_name, m.uuid ≠ m2.uuid)

/-- Helper: the enable pass of the per-consumer loop over a registry whose
SQS mappings are all Disabled, with all updates succeeding and UUIDs
disjoint across members, produces a full-success entry per member and
enables exactly the SQS mappings of each member. -/
theorem controlLoop_enable_all_disabled (reg : List FnConfig) :
    ∀ (p : Platform) (acc : CtrlResults),
      (∀ u, p.updateOk u = true) →
      (∀ c ∈ reg, p.listOk c.function_name = true) →
      (∀ c ∈ reg, ∀ m ∈ sqsMappings p c.function_name, m.state = "Disabled") →
      regUuidsDisjoint p reg →
      ∃ pFin,
        controlLoop "enable" reg p acc =
          ({ acc with
             functions_processed := acc.functions_processed ++ reg.map (enabledFullEntry p),
             success_count := acc.success_count + reg.length }, pFin) ∧
        pFin.listOk = p.listOk ∧ pFin.updateOk = p.updateOk ∧
        (∀ c ∈ reg, pFin.mappings c.function_name =
          (p.mappings c.function_name).map
            (setEnabledIf ((sqsMappings p c.function_name).map Mapping.uuid))) ∧
        (∀ f : String,
          (∀ c ∈ reg, ∀ m ∈ p.mappings f, ∀ m2 ∈ p.mappings c.function_name,
            m.uuid ≠ m2.uuid) →
          pFin.mappings f = p.mappings f) := by
  induction reg with
  | nil =>
    intro p acc hupd hlist hdis hdisj
    refine ⟨p, ?_, rfl, rfl, fun c hc => absurd hc (List.not_mem_nil c), fun f _ => rfl⟩
    show (acc, p) = _
    simp only [Prod.mk.injEq]
    exact ⟨by cases acc; simp, by trivial⟩
  | cons cfg rest ih =>
    intro p acc hupd hlist hdis hdisj
    have hA := enable_fn_all_disabled p cfg (hlist cfg (List.mem_cons_self _ _)) hupd
      (hdis cfg (List.mem_cons_self _ _))
    have hp1maps : ∀ f, (enableSqsOf p cfg.function_name).mappings f =
        (p.mappings f).map (setEnabledIf ((sqsMappings p cfg.function_name).map Mapping.uuid)) :=
      fun f => rfl
    have hpw := List.pairwise_cons.mp hdisj
    have hd1 : ∀ c ∈ rest, ∀ m ∈ p.mappings cfg.function_name,
        ∀ m2 ∈ p.mappings c.function_name, m.uuid ≠ m2.uuid := fun c hc => hpw.1 c hc
    have hrestEq : ∀ c ∈ rest,
        (enableSqsOf p cfg.function_name).mappings c.function_name =
          p.mappings c.function_name :=
      fun c hc => (hp1maps c.function_name).trans
        (mappings_unchanged_of_disjoint p cfg.function_name c.function_name (hd1 c hc))
    have hsqsEq : ∀ c ∈ rest,
        sqsMappings (enableSqsOf p cfg.function_name) c.function_name =
          sqsMappings p c.function_name := by
      intro c hc
      unfold sqsMappings
      rw [hrestEq c hc]
    have hupd1 : ∀ u, (enableSqsOf p cfg.function_name).updateOk u = true := fun u => hupd u
    have hlist1 : ∀ c ∈ rest, (enableSqsOf p cfg.function_name).listOk c.function_name = true :=
      fun c hc => hlist c (List.mem_cons_of_mem _ hc)
    have hdis1 : ∀ c ∈ rest,
        ∀ m ∈ sqsMappings (enableSqsOf p cfg.function_name) c.function_name,
          m.state = "Disabled" :=
      fun c hc m hm => hdis c (List.mem_cons_of_mem _ hc) m (by rwa [hsqsEq c hc] at hm)
    have hdisj1 : regUuidsDisjoint (enableSqsOf p cfg.function_name) rest := by
      refine List.Pairwise.imp_of_mem ?_ hpw.2
      intro a b ha hb hR m hm m2 hm2
      exact hR m (by rwa [hrestEq a ha] at hm) m2 (by rwa [hrestEq b hb] at hm2)
    obtain ⟨pFin, hloop, hfL, hfU, hfM, hfO⟩ := ih (enableSqsOf p cfg.function_name)
      (accAfter acc (ProcEntry.enabledEntry cfg.function_name cfg.service_name (fullEnableResult (sqsMappings p cfg.function_name).length)))
      hupd1 hlist1 hdis1 hdisj1
    refine ⟨pFin, ?_, hfL, hfU, ?_, ?_⟩
    · rw [controlLoop_cons_enable cfg rest p acc _ _ hA rfl]
      rw [hloop]
      simp only [Prod.mk.injEq]
      refine ⟨?_, by trivial⟩
      have hmapEq : rest.map (enabledFullEntry (enableSqsOf p cfg.function_name)) =
          rest.map (enabledFullEntry p) := by
        refine List.map_congr_left ?_
        intro c hc
        unfold enabledFullEntry
        rw [hsqsEq c hc]
      unfold accAfter
      cases acc with
      | mk a t o rsn fp sc ec errs =>
        simp only [List.map_cons, List.length_cons]
        congr 1
        · rw [hmapEq]
          simp only [enabledFullEntry]
          simp [List.append_assoc]
        · omega
    · intro c hc
      rcases List.mem_cons.mp hc with rfl | hc2
      · have hdisjf : ∀ c2 ∈ rest,
            ∀ m ∈ (enableSqsOf p c.function_name).mappings c.function_name,
            ∀ m2 ∈ (enableSqsOf p c.function_name).mappings c2.function_name,
            m.uuid ≠ m2.uuid := by
          intro c2 hc2 m hm m2 hm2
          rw [hp1maps c.function_name] at hm
          obtain ⟨m0, hm0, hm0eq⟩ := List.mem_map.mp hm
          rw [hrestEq c2 hc2] at hm2
          have hne := hd1 c2 hc2 m0 hm0 m2 hm2
          rw [← hm0eq, setEnabledIf_uuid]
          exact hne
        rw [hfO c.function_name hdisjf]
        exact hp1maps c.function_name
      · rw [hfM c hc2, hrestEq c hc2, hsqsEq c hc2]
    · intro f hdaf
      have hpf : (enableSqsOf p cfg.function_name).mappings f = p.mappings f := by
        rw [hp1maps f]
        refine mappings_unchanged_of_disjoint p cfg.function_name f ?_
        intro m hm m2 hm2
        exact (hdaf cfg (List.mem_cons_self _ _) m2 hm2 m hm).symm
      have hdaf1 : ∀ c ∈ rest, ∀ m ∈ (enableSqsOf p cfg.function_name).mappings f,
          ∀ m2 ∈ (enableSqsOf p cfg.function_name).mappings c.function_name,
          m.uuid ≠ m2.uuid := by
        intro c hc m hm m2 hm2
        rw [hpf] at hm
        rw [hrestEq c hc] at hm2
        exact hdaf c (List.mem_cons_of_mem _ hc) m hm m2 hm2
      rw [hfO f hdaf1]
      exact hpf

/-- Helper: the enable pass of the per-consumer loop over a registry whose
SQS mappings are all already Enabled only tallies them and returns the
platform unchanged. -/
theorem controlLoop_enable_all_enabled (reg : List FnConfig) :
    ∀ (p : Platform) (acc : CtrlResults),
      (∀ c ∈ reg, p.listOk c.function_name = true) →
      (∀ c ∈ reg, ∀ m ∈ sqsMappings p c.function_name, m.state = "Enabled") →
      controlLoop "enable" reg p acc =
        ({ acc with
           functions_processed := acc.functions_processed ++ reg.map (enabledAlreadyEntry p)
           success_count := acc.success_count + reg.length }, p) := by
  induction reg with
  | nil =>
    intro p acc hlist hst
    show (acc, p) = _
    simp only [Prod.mk.injEq]
    exact ⟨by cases acc; simp, by trivial⟩
  | cons cfg rest ih =>
    intro p acc hlist hst
    have hB := enable_fn_all_enabled p cfg (hlist cfg (List.mem_cons_self _ _))
      (hst cfg (List.mem_cons_self _ _))
    rw [controlLoop_cons_enable cfg rest p acc _ _ hB rfl]
    rw [ih p
      (accAfter acc (ProcEntry.enabledEntry cfg.function_name cfg.service_name (alreadyEnableResult (sqsMappings p cfg.function_name).length)))
      (fun c hc => hlist c (List.mem_cons_of_mem _ hc))
      (fun c hc => hst c (List.mem_cons_of_mem _ hc))]
    simp only [Prod.mk.injEq]
    refine ⟨?_, by trivial⟩
    unfold accAfter
    cases acc with
    | mk a t o rsn fp sc ec errs =>
      simp only [List.map_cons, List.length_cons]
      congr 1
      · simp only [enabledAlreadyEntry]
        simp [List.append_assoc]
      · omega

/-- Initial operation report before the per-consumer loop runs, as built by
handle_subscription_control. -/
def initAcc (msg : ControlMessage) (now : String) : CtrlResults :=
  { action := lowerStr (msg.action.getD "")
    timestamp := msg.timestamp.getD now
    operator := msg.operator.getD "system"
    reason := msg.reason.getD "Manual control"
    functions_processed := []
    success_count := 0
    error_count := 0
    errors := [] }

/-- C7: on a registry whose SQS bindings are all Disabled, with listings and
updates succeeding and mapping UUIDs disjoint across members, an enable
control message yields a report with one full-success entry per consumer
(mappings_enabled equal to its SQS binding count, success true), and a
second identical enable call on the resulting platform is a no-op: every
consumer reports mappings_already_enabled equal to its binding count,
mappings_enabled zero, and the platform is returned unchanged. -/
theorem apply_control_enable_idempotent (reg : List FnConfig) (p : Platform) (now : String)
    (msg : ControlMessage)
    (hact : lowerStr (msg.action.getD "") = "enable")
    (hupd : ∀ u, p.updateOk u = true)
    (hlist : ∀ c ∈ reg, p.listOk c.function_name = true)
    (hdis : ∀ c ∈ reg, ∀ m ∈ sqsMappings p c.function_name, m.state = "Disabled")
    (hdisj : regUuidsDisjoint p reg) :
    ∃ res1 pAfter res2,
      handle_subscription_control reg p now msg = (Except.ok res1, pAfter) ∧
      res1.functions_processed = reg.map (enabledFullEntry p) ∧
      res1.success_count = reg.length ∧
      res1.error_count = 0 ∧
      handle_subscription_control reg pAfter now msg = (Except.ok res2, pAfter) ∧
      res2.functions_processed = reg.map (enabledAlreadyEntry p) ∧
      res2.success_count = reg.length ∧
      res2.error_count = 0 := by
  have hcond : ¬ (lowerStr (msg.action.getD "") ≠ "enable" ∧
      lowerStr (msg.action.getD "") ≠ "disable") := by
    simp [hact]
  obtain ⟨pAfter, hloop1, hfL, hfU, hfM, hfO⟩ :=
    controlLoop_enable_all_disabled reg p (initAcc msg now) hupd hlist hdis hdisj
  have hh1 : handle_subscription_control reg p now msg =
      (Except.ok (controlLoop (lowerStr (msg.action.getD "")) reg p (initAcc msg now)).1,
       (controlLoop (lowerStr (msg.action.getD "")) reg p (initAcc msg now)).2) := by
    simp only [handle_subscription_control]
    rw [if_neg hcond]
    rfl
  have hh2 : handle_subscription_control reg pAfter now msg =
      (Except.ok (controlLoop (lowerStr (msg.action.getD "")) reg pAfter (initAcc msg now)).1,
       (controlLoop (lowerStr (msg.action.getD "")) reg pAfter (initAcc msg now)).2) := by
    simp only [handle_subscription_control]
    rw [if_neg hcond]
    rfl
  rw [hact] at hh1 hh2
  rw [hloop1] at hh1
  have hsqsAfter : ∀ c ∈ reg, sqsMappings pAfter c.function_name =
      (sqsMappings p c.function_name).map
        (setEnabledIf ((sqsMappings p c.function_name).map Mapping.uuid)) := by
    intro c hc
    unfold sqsMappings
    rw [hfM c hc]
    exact filter_sqs_map_setEnabledIf _ _
  have hlist2 : ∀ c ∈ reg, pAfter.listOk c.function_name = true := by
    intro c hc
    rw [hfL]
    exact hlist c hc
  have hst2 : ∀ c ∈ reg, ∀ m ∈ sqsMappings pAfter c.function_name, m.state = "Enabled" := by
    intro c hc m hm
    rw [hsqsAfter c hc] at hm
    obtain ⟨m0, hm0, hm0eq⟩ := List.mem_map.mp hm
    rw [← hm0eq]
    exact setEnabledIf_state_of_mem _ _ (List.mem_map_of_mem Mapping.uuid hm0)
  have hcntEq : ∀ c ∈ reg, (sqsMappings pAfter c.function_name).length =
      (sqsMappings p c.function_name).length := by
    intro c hc
    rw [hsqsAfter c hc, List.length_map]
  have hloop2 := controlLoop_enable_all_enabled reg pAfter (initAcc msg now) hlist2 hst2
  have hentEq : reg.map (enabledAlreadyEntry pAfter) = reg.map (enabledAlreadyEntry p) := by
    refine List.map_congr_left ?_
    intro c hc
    unfold enabledAlreadyEntry
    rw [hcntEq c hc]
  rw [hentEq] at hloop2
  rw [hloop2] at hh2
  refine ⟨_, _, _, hh1, ?_, ?_, ?_, hh2, ?_, ?_, ?_⟩ <;> simp [initAcc]

/-- Sample platform for the idempotence witness: two consumers, each with
one Disabled SQS mapping, distinct UUIDs, healthy platform calls. -/
def platformIdem : Platform :=
  { mappings := fun f =>
      if f = "fnB" then [⟨"u1", "Disabled", "arn:aws:sqs:qB"⟩]
      else if f = "fnC" then [⟨"u2", "Disabled", "arn:aws:sqs:qC"⟩]
      else []
    listOk := fun _ => true
    updateOk := fun _ => true }

/-- Sample registry for the idempotence witness. -/
def regIdem : List FnConfig := [⟨"fnB", "b"⟩, ⟨"fnC", "c"⟩]

/-- Helper: the two witness consumers have disjoint mapping UUIDs. -/
theorem regIdem_disjoint : regUuidsDisjoint platformIdem regIdem := by
  unfold regUuidsDisjoint regIdem
  constructor
  · intro c2 hc2
    rw [List.mem_singleton] at hc2
    subst hc2
    decide
  · constructor
    · intro c2 hc2
      exact absurd hc2 (List.not_mem_nil c2)
    · constructor

/-- C7 witness: the idempotence theorem applied to the two-consumer
platform with every hypothesis discharged concretely. -/
theorem apply_control_enable_idempotent_witness :
    ∃ res1 pAfter res2,
      handle_subscription_control regIdem platformIdem "t0" msgEnable
        = (Except.ok res1, pAfter) ∧
      res1.functions_processed = regIdem.map (enabledFullEntry platformIdem) ∧
      res1.success_count = regIdem.length ∧
      res1.error_count = 0 ∧
      handle_subscription_control regIdem pAfter "t0" msgEnable = (Except.ok res2, pAfter) ∧
      res2.functions_processed = regIdem.map (enabledAlreadyEntry platformIdem) ∧
      res2.success_count = regIdem.length ∧
      res2.error_count = 0 :=
  apply_control_enable_idempotent regIdem platformIdem "t0" msgEnable
    (by decide) (fun u => rfl) (by decide) (by decide) regIdem_disjoint

end AsyncCode
